import Mathlib

set_option autoImplicit false

/-!
Shallow embedding of `src/mysql-connector.py` (repository Shukia): a batch
utility that fetches minute-granularity stock bars, persists them to a
`StockDetails` table, and recomputes aggregate `ProfitStatistics` per ticker.

Prices are modelled as rationals, dates and times as natural numbers, and the
observable behaviour of each database-facing method as a result paired with a
list of events (inserts, commit, rollback, log lines, sleeps).  External
effects (the MySQL server, the yfinance provider) are parameters: a function
giving the outcome of each attempted call.
-/

namespace Shukia

/-- Value of the `profit_loss` column of `StockDetails`: the string enum
`'profit' | 'loss'` written by `save_stock_details`. -/
inductive ProfitLoss where
  | profit
  | loss
deriving DecidableEq

/-- One row of the DataFrame handed to `DatabaseManager.save_stock_details`:
a yfinance minute bar after `get_stock_data` added the `ticker`, `date` and
`time` columns (src/mysql-connector.py lines 142-145). -/
structure PriceBar where
  ticker : String
  date : Nat
  time : Nat
  Open : ℚ
  Close : ℚ
  Volume : ℤ
deriving DecidableEq

/-- Python `round(x, 2)`: rounding to two decimal places. -/
def round2 (x : ℚ) : ℚ := (round (x * 100) : ℚ) / 100

/-- `percentage_change = ((row['Close'] - row['Open']) / row['Open']) * 100`
(line 70). -/
def percentage_change (row : PriceBar) : ℚ :=
  (row.Close - row.Open) / row.Open * 100

/-- `profit_loss = 'profit' if row['Close'] > row['Open'] else 'loss'`
(line 71). -/
def profit_loss (row : PriceBar) : ProfitLoss :=
  if row.Close > row.Open then .profit else .loss

/-- A persisted row of the `StockDetails` table. -/
structure StockDetailRecord where
  ticker : String
  date : Nat
  open_price : ℚ
  close_price : ℚ
  volume : ℤ
  percentage_change : ℚ
  profit_loss : ProfitLoss
deriving DecidableEq

/-- The `values` tuple built for one row inside the insert loop of
`save_stock_details` (lines 70-81): prices copied through, the percentage
change rounded to 2 places, and the profit/loss classification. -/
def toRecord (row : PriceBar) : StockDetailRecord :=
  { ticker := row.ticker
    date := row.date
    open_price := row.Open
    close_price := row.Close
    volume := row.Volume
    percentage_change := round2 (percentage_change row)
    profit_loss := profit_loss row }

/-- The Python exceptions `save_stock_details` can raise: a database
`mysql.connector.Error` (the only class its `except` arm catches), and the
`NameError` raised by the post-loop log line when the loop variable `row` was
never bound. -/
inductive PyError where
  | dbError
  | nameError
deriving DecidableEq

/-- Observable actions of `save_stock_details` against the cursor, the
connection and the logger. -/
inductive SaveEvent where
  | insertRow (r : StockDetailRecord)
  | commit
  | rollback
  | logSaved (ticker : String)
  | logSaveError
  | cursorClose
deriving DecidableEq

/-- The `for _, row in df.iterrows()` loop of `save_stock_details`
(lines 64-83).  `ifails i` says whether the `cursor.execute` of the `i`-th
row raises a database `Error`; the first raise aborts the loop.  Returns the
insert events issued and whether an execute raised. -/
def insertLoop (ifails : Nat → Bool) : List PriceBar → Nat → List SaveEvent × Bool
  | [], _ => ([], false)
  | row :: rest, i =>
    if ifails i then ([], true)
    else
      let (evs, failed) := insertLoop ifails rest (i + 1)
      (SaveEvent.insertRow (toRecord row) :: evs, failed)

/-- `DatabaseManager.save_stock_details` (lines 57-92).  After the loop the
connection is committed (line 85) and then line 86 logs
`row['ticker']` for the last loop variable binding; on an empty DataFrame
that name was never bound, so the log raises `NameError`, which the
`except Error` arm (lines 87-90) does not catch: no rollback happens for it.
A database `Error` from an execute or from the commit is logged, the
connection rolled back, and the error re-raised; the `finally` closes the
cursor on every path. -/
def save_stock_details (df : List PriceBar) (ifails : Nat → Bool)
    (commitFails : Bool) : Except PyError Unit × List SaveEvent :=
  if (insertLoop ifails df 0).2 then
    (.error .dbError, (insertLoop ifails df 0).1 ++ [.logSaveError, .rollback, .cursorClose])
  else if commitFails then
    (.error .dbError, (insertLoop ifails df 0).1 ++ [.logSaveError, .rollback, .cursorClose])
  else
    match df.getLast? with
    | none => (.error .nameError, (insertLoop ifails df 0).1 ++ [.commit, .cursorClose])
    | some lastRow =>
      (.ok (), (insertLoop ifails df 0).1 ++ [.commit, .logSaved lastRow.ticker, .cursorClose])

/-- Transactional state of the `StockDetails` table: the committed rows plus
the uncommitted work of the open transaction. -/
structure DbState where
  committed : List StockDetailRecord
  pending : List StockDetailRecord
deriving DecidableEq

/-- Effect of one event on the transactional state: an insert joins the open
transaction, `commit` makes the pending rows durable, `rollback` discards
them; log and cursor events do not touch the table. -/
def stepEvent (s : DbState) : SaveEvent → DbState
  | .insertRow r => { s with pending := s.pending ++ [r] }
  | .commit => { committed := s.committed ++ s.pending, pending := [] }
  | .rollback => { s with pending := [] }
  | _ => s

/-- Replay a list of events against a transactional state. -/
def runEvents (s : DbState) (evs : List SaveEvent) : DbState :=
  evs.foldl stepEvent s

/-- The spec's sample bar: open 100, close 110, volume 5000 for AAPL. -/
def sampleBar : PriceBar :=
  { ticker := "AAPL", date := 20251012, time := 930,
    Open := 100, Close := 110, Volume := 5000 }

/-- Outcome of one `mysql.connector.connect` call inside `connect` (lines
40-46): a connection for which `is_connected()` is true, one for which it is
false, or a raised `mysql.connector.Error`. -/
inductive ConnOutcome where
  | connected
  | notConnected
  | raisesError
deriving DecidableEq

/-- Observable actions of `DatabaseManager.connect`: one `attemptConn` per
`mysql.connector.connect` call, the success log, the per-attempt failure log
(`Attempt n failed`, carrying the 1-based attempt number), and the
`time.sleep` delay. -/
inductive ConnEvent where
  | attemptConn
  | logConnected
  | logAttemptFailed (n : Nat)
  | sleep (d : Nat)
deriving DecidableEq

/-- How `connect` finishes: a normal `return` with a live connection, falling
off the end of the `for` loop without connecting (only reachable when some
call returns a connection whose `is_connected()` is false), or raising the
fatal `Exception` after the last retry. -/
inductive ConnResult where
  | ok
  | fellThrough
  | raisedFatal
deriving DecidableEq

/-- The `for attempt in range(max_retries)` loop of `connect` (lines 38-55),
recursing on the number of remaining iterations; `attempt` is the 0-based
index, so the last iteration is the one with no iterations remaining after
it.  On `Error`: log the failure, and either sleep `retry_delay = 5` and
retry (when `attempt < max_retries - 1`) or raise the fatal exception. -/
def connectAux (outcomes : Nat → ConnOutcome) :
    Nat → Nat → ConnResult × List ConnEvent
  | _, 0 => (.fellThrough, [])
  | attempt, remaining + 1 =>
    match outcomes attempt with
    | .connected => (.ok, [.attemptConn, .logConnected])
    | .notConnected =>
      let next := connectAux outcomes (attempt + 1) remaining
      (next.1, .attemptConn :: next.2)
    | .raisesError =>
      if remaining = 0 then
        (.raisedFatal, [.attemptConn, .logAttemptFailed (attempt + 1)])
      else
        let next := connectAux outcomes (attempt + 1) remaining
        (next.1, .attemptConn :: .logAttemptFailed (attempt + 1) :: .sleep 5 :: next.2)

/-- `DatabaseManager.connect` (lines 33-55): `max_retries = 3`,
`retry_delay = 5`, starting at attempt 0. -/
def connect (outcomes : Nat → ConnOutcome) : ConnResult × List ConnEvent :=
  connectAux outcomes 0 3

/-- Number of `mysql.connector.connect` calls recorded in a trace. -/
def countAttempts : List ConnEvent → Nat
  | [] => 0
  | .attemptConn :: rest => countAttempts rest + 1
  | _ :: rest => countAttempts rest

/-- One row of the `ProfitStatistics` table. -/
structure ProfitStatRow where
  total_days : Nat
  profit_days : Nat
  loss_days : Nat
  profit_probability : ℚ
  last_calculated : Nat
deriving DecidableEq

/-- The rows of `StockDetails` forming one ticker's group in the
`GROUP BY ticker` of `update_profit_statistics` (line 113). -/
def tickerRows (rows : List StockDetailRecord) (t : String) : List StockDetailRecord :=
  rows.filter (fun r => r.ticker = t)

/-- One ticker's row of the aggregate SELECT of `update_profit_statistics`
(lines 106-113): `COUNT(*)`, the two conditional sums, the probability
`(profit_days / COUNT(*)) * 100`, and `CURDATE()` as `today`. -/
def computeStat (rows : List StockDetailRecord) (today : Nat) (t : String) :
    ProfitStatRow :=
  { total_days := (tickerRows rows t).length
    profit_days :=
      ((tickerRows rows t).filter (fun r => r.profit_loss = ProfitLoss.profit)).length
    loss_days :=
      ((tickerRows rows t).filter (fun r => r.profit_loss = ProfitLoss.loss)).length
    profit_probability :=
      (((tickerRows rows t).filter (fun r => r.profit_loss = ProfitLoss.profit)).length : ℚ) /
        ((tickerRows rows t).length : ℚ) * 100
    last_calculated := today }

/-- The `ProfitStatistics` table, keyed by its UNIQUE `ticker` column. -/
def ProfitStatistics : Type := String → Option ProfitStatRow

/-- `DatabaseManager.update_profit_statistics` (lines 94-130): the
`INSERT ... SELECT ... GROUP BY ticker ON DUPLICATE KEY UPDATE` statement
upserts one freshly computed row per ticker occurring in `StockDetails`;
tickers with no `StockDetails` row are left untouched. -/
def update_profit_statistics (rows : List StockDetailRecord) (today : Nat)
    (stats : ProfitStatistics) : ProfitStatistics :=
  fun t =>
    if rows.any (fun r => r.ticker = t) then some (computeStat rows today t)
    else stats t

/-- A minute bar as returned by `yf.Ticker(t).history(period="1d",
interval="1m")`, before `get_stock_data` adds the `ticker`, `date` and
`time` columns: a `Datetime` index split here into a date and a time-of-day,
with `Open`, `Close` and `Volume` columns. -/
structure RawBar where
  date : Nat
  time : Nat
  Open : ℚ
  Close : ℚ
  Volume : ℤ
deriving DecidableEq

/-- The spec's sample bar as the provider returns it, before the column
additions of `get_stock_data`. -/
def sampleRaw : RawBar :=
  { date := 20251012, time := 930, Open := 100, Close := 110, Volume := 5000 }

/-- Behaviour of the provider for one ticker: the `history` call either
raises some exception or returns a (possibly empty) DataFrame. -/
inductive FetchOutcome where
  | raises (msg : String)
  | history (df : List RawBar)
deriving DecidableEq

/-- The column additions of `get_stock_data` on a non-empty DataFrame (lines
142-145): set `ticker` to the requested symbol and split the `Datetime`
index into `date` and `time`. -/
def processBar (t : String) (b : RawBar) : PriceBar :=
  { ticker := t, date := b.date, time := b.time,
    Open := b.Open, Close := b.Close, Volume := b.Volume }

/-- The one logging action of `get_stock_data`: the error log of its
`except` arm (line 149). -/
inductive FetchEvent where
  | logFetchError (t : String) (msg : String)
deriving DecidableEq

/-- `StockAnalyzer.get_stock_data` (lines 136-150): on a raised provider
error, log it and return `None`; on an empty DataFrame return `None`; on a
non-empty DataFrame return it with the added columns. -/
def get_stock_data (t : String) (o : FetchOutcome) :
    Option (List PriceBar) × List FetchEvent :=
  match o with
  | .raises msg => (none, [.logFetchError t msg])
  | .history [] => (none, [])
  | .history df => (some (df.map (processBar t)), [])

/-- Observable actions of the `analyze_stocks` run. -/
inductive RunEvent where
  | fetched (t : String)
  | saved (t : String) (df : List PriceBar)
  | statsUpdated
deriving DecidableEq

/-- The per-ticker loop of `analyze_stocks` (lines 155-158): fetch each
ticker, and save the result when the fetch produced data.  `saveRaises t`
gives the message of the exception `save_stock_details` raises for ticker
`t` (or `none`); the first raise aborts the loop. -/
def analyzeLoop (fetch : String → FetchOutcome) (saveRaises : String → Option String) :
    List String → List RunEvent × Option String
  | [] => ([], none)
  | t :: ts =>
    match (get_stock_data t (fetch t)).1 with
    | none =>
      let next := analyzeLoop fetch saveRaises ts
      (RunEvent.fetched t :: next.1, next.2)
    | some df =>
      match saveRaises t with
      | some msg => ([RunEvent.fetched t], some msg)
      | none =>
        let next := analyzeLoop fetch saveRaises ts
        (RunEvent.fetched t :: RunEvent.saved t df :: next.1, next.2)

/-- `StockAnalyzer.analyze_stocks` (lines 152-167): run the per-ticker loop,
then `update_profit_statistics` (`updateRaises` gives the message of the
exception it raises, if any); any exception is caught by the surrounding
`except Exception` arm, which returns `(False, "Analysis failed: " + msg)`;
otherwise `(True, "Analysis completed successfully")` is returned. -/
def analyze_stocks (tickers : List String) (fetch : String → FetchOutcome)
    (saveRaises : String → Option String) (updateRaises : Option String) :
    (Bool × String) × List RunEvent :=
  match analyzeLoop fetch saveRaises tickers with
  | (evs, some msg) => ((false, "Analysis failed: " ++ msg), evs)
  | (evs, none) =>
    match updateRaises with
    | some msg => ((false, "Analysis failed: " ++ msg), evs)
    | none => ((true, "Analysis completed successfully"), evs ++ [RunEvent.statsUpdated])

/-! ### Helper lemmas about the insert loop and event replay -/

theorem runEvents_append (s : DbState) (a b : List SaveEvent) :
    runEvents s (a ++ b) = runEvents (runEvents s a) b := by
  simp [runEvents, List.foldl_append]

theorem insertLoop_mem (ifails : Nat → Bool) (r : StockDetailRecord) :
    ∀ (df : List PriceBar) (i : Nat),
      SaveEvent.insertRow r ∈ (insertLoop ifails df i).1 →
      ∃ b ∈ df, r = toRecord b := by
  intro df
  induction df with
  | nil => intro i h; simp [insertLoop] at h
  | cons b rest ih =>
    intro i h
    by_cases hf : ifails i
    · simp [insertLoop, hf] at h
    · simp only [insertLoop, hf, if_neg, Bool.false_eq_true, not_false_iff,
        ite_false, List.mem_cons] at h
      rcases h with h | h
      · exact ⟨b, List.mem_cons_self b rest, (SaveEvent.insertRow.injEq _ _).mp h⟩
      · obtain ⟨b', hb', hr⟩ := ih (i + 1) h
        exact ⟨b', List.mem_cons_of_mem _ hb', hr⟩

theorem insertLoop_of_ok (ifails : Nat → Bool) :
    ∀ (df : List PriceBar) (i : Nat),
      (insertLoop ifails df i).2 = false →
      (insertLoop ifails df i).1 =
        df.map (fun row => SaveEvent.insertRow (toRecord row)) := by
  intro df
  induction df with
  | nil => intro i _; simp [insertLoop]
  | cons b rest ih =>
    intro i h
    by_cases hf : ifails i
    · simp [insertLoop, hf] at h
    · simp only [insertLoop, hf, Bool.false_eq_true, not_false_iff, ite_false,
        List.map_cons] at h ⊢
      exact congrArg _ (ih (i + 1) h)

theorem runEvents_committed_of_no_commit (evs : List SaveEvent) :
    ∀ s : DbState, SaveEvent.commit ∉ evs → (runEvents s evs).committed = s.committed := by
  induction evs with
  | nil => intro s _; rfl
  | cons e rest ih =>
    intro s h
    have he : e ≠ SaveEvent.commit := fun hc => h (hc ▸ List.mem_cons_self e rest)
    have hrest : SaveEvent.commit ∉ rest := fun hc => h (List.mem_cons_of_mem e hc)
    have : (stepEvent s e).committed = s.committed := by
      cases e <;> simp_all [stepEvent]
    rw [runEvents, List.foldl_cons, ← runEvents, ih _ hrest, this]

theorem runEvents_inserts (rows : List PriceBar) :
    ∀ s : DbState,
      runEvents s (rows.map (fun row => SaveEvent.insertRow (toRecord row))) =
        { committed := s.committed, pending := s.pending ++ rows.map toRecord } := by
  induction rows with
  | nil => intro s; simp [runEvents]
  | cons b rest ih =>
    intro s
    simp only [List.map_cons, runEvents, List.foldl_cons]
    rw [← runEvents, ih]
    simp [stepEvent]

theorem insertLoop_no_commit (ifails : Nat → Bool) :
    ∀ (df : List PriceBar) (i : Nat),
      SaveEvent.commit ∉ (insertLoop ifails df i).1 := by
  intro df
  induction df with
  | nil => intro i; simp [insertLoop]
  | cons b rest ih =>
    intro i
    by_cases hf : ifails i
    · simp [insertLoop, hf]
    · simp only [insertLoop, hf, Bool.false_eq_true, not_false_iff, ite_false,
        List.mem_cons]
      rintro (h | h)
      · exact SaveEvent.noConfusion h
      · exact ih (i + 1) h

/-- Every insert event emitted by `save_stock_details` carries the record of
one of its input rows, as built by the loop body. -/
theorem save_mem_insert (df : List PriceBar) (ifails : Nat → Bool)
    (commitFails : Bool) (r : StockDetailRecord)
    (h : SaveEvent.insertRow r ∈ (save_stock_details df ifails commitFails).2) :
    ∃ b ∈ df, r = toRecord b := by
  apply insertLoop_mem ifails r df 0
  simp only [save_stock_details] at h
  by_cases hfail : (insertLoop ifails df 0).2 <;>
    simp only [hfail, if_true, if_false, Bool.false_eq_true, not_false_iff, ite_false,
      ite_true] at h
  · rw [List.mem_append] at h
    rcases h with h | h
    · exact h
    · simp at h
  · cases commitFails <;> simp only [ite_true, ite_false, Bool.false_eq_true] at h
    · rcases hdf : df.getLast? with _ | lastRow <;> rw [hdf] at h <;>
        rw [List.mem_append] at h <;>
        rcases h with h | h <;> first | exact h | simp at h
    · rw [List.mem_append] at h
      rcases h with h | h
      · exact h
      · simp at h

theorem insertLoop_no_rollback (ifails : Nat → Bool) :
    ∀ (df : List PriceBar) (i : Nat),
      SaveEvent.rollback ∉ (insertLoop ifails df i).1 := by
  intro df
  induction df with
  | nil => intro i; simp [insertLoop]
  | cons b rest ih =>
    intro i
    by_cases hf : ifails i
    · simp [insertLoop, hf]
    · simp only [insertLoop, hf, Bool.false_eq_true, not_false_iff, ite_false,
        List.mem_cons]
      rintro (h | h)
      · exact SaveEvent.noConfusion h
      · exact ih (i + 1) h

/-! ### C1 and C2: the per-row computed columns -/

/-- C1: every row inserted by `save_stock_details` has
`profit_loss = 'profit'` iff `close > open`, and `'loss'` otherwise — the
boundary `close = open` included, which is classified `'loss'`. -/
theorem inserted_profit_loss_policy (df : List PriceBar) (ifails : Nat → Bool)
    (commitFails : Bool) (r : StockDetailRecord)
    (h : SaveEvent.insertRow r ∈ (save_stock_details df ifails commitFails).2) :
    (r.profit_loss = ProfitLoss.profit ↔ r.close_price > r.open_price) ∧
    (r.close_price = r.open_price → r.profit_loss = ProfitLoss.loss) := by
  obtain ⟨b, _, rfl⟩ := save_mem_insert df ifails commitFails r h
  constructor
  · simp only [toRecord, profit_loss]
    by_cases hc : b.Close > b.Open <;> simp [hc]
  · intro he
    simp only [toRecord] at he ⊢
    simp [profit_loss, he, lt_irrefl]

theorem inserted_profit_loss_policy_witness :
    ((toRecord sampleBar).profit_loss = ProfitLoss.profit ↔
      (toRecord sampleBar).close_price > (toRecord sampleBar).open_price) ∧
    ((toRecord sampleBar).close_price = (toRecord sampleBar).open_price →
      (toRecord sampleBar).profit_loss = ProfitLoss.loss) :=
  inserted_profit_loss_policy [sampleBar] (fun _ => false) false (toRecord sampleBar)
    (by simp [save_stock_details, insertLoop])

/-- C2: every row persisted by `save_stock_details` carries
`percentage_change = round((close - open) / open * 100, 2)`, exactly. -/
theorem inserted_percentage_change (df : List PriceBar) (ifails : Nat → Bool)
    (commitFails : Bool) (r : StockDetailRecord)
    (h : SaveEvent.insertRow r ∈ (save_stock_details df ifails commitFails).2) :
    r.percentage_change = round2 ((r.close_price - r.open_price) / r.open_price * 100) := by
  obtain ⟨b, _, rfl⟩ := save_mem_insert df ifails commitFails r h
  simp [toRecord, percentage_change]

theorem inserted_percentage_change_witness :
    (toRecord sampleBar).percentage_change =
      round2 (((toRecord sampleBar).close_price - (toRecord sampleBar).open_price) /
        (toRecord sampleBar).open_price * 100) :=
  inserted_percentage_change [sampleBar] (fun _ => false) false (toRecord sampleBar)
    (by simp [save_stock_details, insertLoop])

/-! ### C10: the empty-batch NameError -/

/-- C10: on an empty DataFrame `save_stock_details` executes no insert, issues
the commit, and then raises `NameError` (not a database `Error`) at the
success log, because the loop variable `row` was never bound; the
`except Error` rollback branch is not taken, so the event trace holds exactly
one commit, no insert and no rollback. -/
theorem save_empty_raises_nameError (ifails : Nat → Bool) :
    save_stock_details [] ifails false =
      (Except.error PyError.nameError, [SaveEvent.commit, SaveEvent.cursorClose]) := by
  rfl

theorem save_empty_raises_nameError_witness :
    save_stock_details [] (fun _ => false) false =
      (Except.error PyError.nameError, [SaveEvent.commit, SaveEvent.cursorClose]) :=
  save_empty_raises_nameError (fun _ => false)

/-! ### C3: per-batch atomicity of `save_stock_details` -/

/-- C3: `save_stock_details` is atomic per batch.  When a row insert or the
commit raises a database `Error` (result `dbError`), the trace holds no
commit and a rollback, so replaying it leaves the committed table unchanged;
when every row succeeds (result `ok`), the trace is exactly the inserts of
all rows followed by a single commit, and replaying it appends exactly the
batch's records to the committed table. -/
theorem save_batch_atomic (df : List PriceBar) (ifails : Nat → Bool)
    (commitFails : Bool) (init : List StockDetailRecord) :
    ((save_stock_details df ifails commitFails).1 = Except.error PyError.dbError →
      SaveEvent.commit ∉ (save_stock_details df ifails commitFails).2 ∧
      SaveEvent.rollback ∈ (save_stock_details df ifails commitFails).2 ∧
      (runEvents ⟨init, []⟩ (save_stock_details df ifails commitFails).2).committed = init) ∧
    ((save_stock_details df ifails commitFails).1 = Except.ok () →
      (∃ t, (save_stock_details df ifails commitFails).2 =
          df.map (fun row => SaveEvent.insertRow (toRecord row)) ++
            [SaveEvent.commit, SaveEvent.logSaved t, SaveEvent.cursorClose]) ∧
      (runEvents ⟨init, []⟩ (save_stock_details df ifails commitFails).2).committed =
        init ++ df.map toRecord) := by
  constructor
  · intro herr
    have hevents : (save_stock_details df ifails commitFails).2 =
        (insertLoop ifails df 0).1 ++
          [SaveEvent.logSaveError, SaveEvent.rollback, SaveEvent.cursorClose] := by
      simp only [save_stock_details] at herr ⊢
      by_cases hfail : (insertLoop ifails df 0).2
      · simp [hfail]
      · cases commitFails
        · exfalso
          rcases hdf : df.getLast? with _ | t <;> simp [hfail, hdf] at herr
        · simp [hfail]
    rw [hevents]
    have hnc : SaveEvent.commit ∉
        (insertLoop ifails df 0).1 ++
          [SaveEvent.logSaveError, SaveEvent.rollback, SaveEvent.cursorClose] := by
      rw [List.mem_append]
      push_neg
      exact ⟨insertLoop_no_commit ifails df 0, by decide⟩
    refine ⟨hnc, ?_, runEvents_committed_of_no_commit _ ⟨init, []⟩ hnc⟩
    rw [List.mem_append]
    right
    simp
  · intro hok
    have hfail : (insertLoop ifails df 0).2 = false := by
      by_contra hf
      rw [Bool.not_eq_false] at hf
      simp [save_stock_details, hf] at hok
    have hcf : commitFails = false := by
      cases commitFails
      · rfl
      · exfalso; simp [save_stock_details, hfail] at hok
    rcases hdf : df.getLast? with _ | t
    · exfalso; simp [save_stock_details, hfail, hcf, hdf] at hok
    · have hevents : (save_stock_details df ifails commitFails).2 =
          (insertLoop ifails df 0).1 ++
            [SaveEvent.commit, SaveEvent.logSaved t.ticker, SaveEvent.cursorClose] := by
        simp [save_stock_details, hfail, hcf, hdf]
      have hins := insertLoop_of_ok ifails df 0 hfail
      constructor
      · exact ⟨t.ticker, by rw [hevents, hins]⟩
      · rw [hevents, hins, runEvents_append, runEvents_inserts]
        simp [runEvents, stepEvent]

theorem save_batch_atomic_witness :
    (runEvents ⟨[], []⟩ (save_stock_details [sampleBar] (fun _ => true) false).2).committed
        = [] ∧
    (runEvents ⟨[], []⟩ (save_stock_details [sampleBar] (fun _ => false) false).2).committed
        = [] ++ [sampleBar].map toRecord := by
  constructor
  · exact ((save_batch_atomic [sampleBar] (fun _ => true) false []).1 rfl).2.2
  · exact ((save_batch_atomic [sampleBar] (fun _ => false) false []).2 rfl).2

/-! ### C4: the connection retry loop -/

theorem connectAux_attempts_le (outcomes : Nat → ConnOutcome) :
    ∀ (remaining attempt : Nat),
      countAttempts (connectAux outcomes attempt remaining).2 ≤ remaining := by
  intro remaining
  induction remaining with
  | zero => intro a; simp [connectAux, countAttempts]
  | succ r ih =>
    intro a
    cases ho : outcomes a
    · simp [connectAux, ho, countAttempts]
    · simp only [connectAux, ho, countAttempts]
      exact Nat.succ_le_succ (ih (a + 1))
    · by_cases hr : r = 0
      · simp [connectAux, ho, hr, countAttempts]
      · simp only [connectAux, ho, hr, ite_false, countAttempts]
        exact Nat.succ_le_succ (ih (a + 1))

/-- C4: `connect` calls `mysql.connector.connect` at most 3 times, and when
all three attempts raise `Error` the run is exactly: attempt 1, failure log
1, sleep 5, attempt 2, failure log 2, sleep 5, attempt 3, failure log 3, and
the fatal exception is raised — 3 logged attempts, a fixed 5-unit delay
between consecutive attempts, and the error propagated after the 3rd. -/
theorem connect_retry_budget (outcomes : Nat → ConnOutcome) :
    countAttempts (connect outcomes).2 ≤ 3 ∧
    (outcomes 0 = ConnOutcome.raisesError →
      outcomes 1 = ConnOutcome.raisesError →
      outcomes 2 = ConnOutcome.raisesError →
      connect outcomes =
        (ConnResult.raisedFatal,
          [ConnEvent.attemptConn, ConnEvent.logAttemptFailed 1, ConnEvent.sleep 5,
           ConnEvent.attemptConn, ConnEvent.logAttemptFailed 2, ConnEvent.sleep 5,
           ConnEvent.attemptConn, ConnEvent.logAttemptFailed 3])) := by
  constructor
  · exact connectAux_attempts_le outcomes 3 0
  · intro h0 h1 h2
    simp [connect, connectAux, h0, h1, h2]

theorem connect_retry_budget_witness :
    connect (fun _ => ConnOutcome.raisesError) =
      (ConnResult.raisedFatal,
        [ConnEvent.attemptConn, ConnEvent.logAttemptFailed 1, ConnEvent.sleep 5,
         ConnEvent.attemptConn, ConnEvent.logAttemptFailed 2, ConnEvent.sleep 5,
         ConnEvent.attemptConn, ConnEvent.logAttemptFailed 3]) :=
  (connect_retry_budget (fun _ => ConnOutcome.raisesError)).2 rfl rfl rfl

/-! ### C5, C6, C7: the aggregate statistics -/

theorem length_filter_profit_loss (l : List StockDetailRecord) :
    (l.filter (fun r => r.profit_loss = ProfitLoss.profit)).length +
      (l.filter (fun r => r.profit_loss = ProfitLoss.loss)).length = l.length := by
  induction l with
  | nil => simp
  | cons r rest ih =>
    cases hpl : r.profit_loss <;> simp [List.filter_cons, hpl] <;> omega

/-- C5: after `update_profit_statistics`, every ticker present in
`StockDetails` has a `ProfitStatistics` row, and it satisfies
`total_days = profit_days + loss_days` — each group row counts toward
exactly one of the two conditional sums, since `profit_loss` is the
two-valued enum written by `save_stock_details`. -/
theorem stats_total_days_split (rows : List StockDetailRecord) (today : Nat)
    (stats : ProfitStatistics) (t : String)
    (h : rows.any (fun r => r.ticker = t)) :
    ∃ s, update_profit_statistics rows today stats t = some s ∧
      s.total_days = s.profit_days + s.loss_days := by
  refine ⟨computeStat rows today t, ?_, ?_⟩
  · simp [update_profit_statistics, h]
  · exact (length_filter_profit_loss (tickerRows rows t)).symm

theorem stats_total_days_split_witness :
    ∃ s, update_profit_statistics [toRecord sampleBar] 20251012
        (fun _ => none) "AAPL" = some s ∧
      s.total_days = s.profit_days + s.loss_days :=
  stats_total_days_split [toRecord sampleBar] 20251012 (fun _ => none) "AAPL"
    (by decide)

/-- C6: after `update_profit_statistics`, every ticker present in
`StockDetails` has `profit_probability = profit_days / total_days * 100`,
exactly as rationals — hence within any rounding tolerance. -/
theorem stats_profit_probability (rows : List StockDetailRecord) (today : Nat)
    (stats : ProfitStatistics) (t : String)
    (h : rows.any (fun r => r.ticker = t)) :
    ∃ s, update_profit_statistics rows today stats t = some s ∧
      s.profit_probability = (s.profit_days : ℚ) / (s.total_days : ℚ) * 100 :=
  ⟨computeStat rows today t, by simp [update_profit_statistics, h], rfl⟩

theorem stats_profit_probability_witness :
    ∃ s, update_profit_statistics [toRecord sampleBar] 20251012
        (fun _ => none) "AAPL" = some s ∧
      s.profit_probability = (s.profit_days : ℚ) / (s.total_days : ℚ) * 100 :=
  stats_profit_probability [toRecord sampleBar] 20251012 (fun _ => none) "AAPL"
    (by decide)

/-- C7: `update_profit_statistics` is idempotent on the computed fields:
the upserted values depend only on `StockDetails` and the current date, so a
second run with no new data reproduces the identical `ProfitStatistics`
table, and every upserted row carries `last_calculated = today`. -/
theorem update_profit_statistics_idempotent (rows : List StockDetailRecord)
    (today : Nat) (stats : ProfitStatistics) :
    update_profit_statistics rows today (update_profit_statistics rows today stats) =
      update_profit_statistics rows today stats ∧
    (∀ t, rows.any (fun r => r.ticker = t) →
      update_profit_statistics rows today stats t = some (computeStat rows today t) ∧
      (computeStat rows today t).last_calculated = today) := by
  constructor
  · funext t
    by_cases h : rows.any (fun r => r.ticker = t) <;>
      simp [update_profit_statistics, h]
  · intro t h
    exact ⟨by simp [update_profit_statistics, h], rfl⟩

theorem update_profit_statistics_idempotent_witness :
    update_profit_statistics [toRecord sampleBar] 20251012 (fun _ => none) "AAPL" =
      some (computeStat [toRecord sampleBar] 20251012 "AAPL") ∧
    (computeStat [toRecord sampleBar] 20251012 "AAPL").last_calculated = 20251012 :=
  (update_profit_statistics_idempotent [toRecord sampleBar] 20251012
    (fun _ => none)).2 "AAPL" (by decide)

/-! ### C8 and C9: the fetcher and the orchestrator -/

theorem analyzeLoop_saved_mem (fetch : String → FetchOutcome)
    (saveRaises : String → Option String) (t : String) (df : List PriceBar) :
    ∀ ts : List String,
      RunEvent.saved t df ∈ (analyzeLoop fetch saveRaises ts).1 →
      (get_stock_data t (fetch t)).1 = some df := by
  intro ts
  induction ts with
  | nil => intro h; simp [analyzeLoop] at h
  | cons u us ih =>
    intro h
    rcases hg : (get_stock_data u (fetch u)).1 with _ | df'
    · simp only [analyzeLoop, hg, List.mem_cons] at h
      rcases h with h | h
      · exact RunEvent.noConfusion h
      · exact ih h
    · rcases hs : saveRaises u with _ | msg
      · simp only [analyzeLoop, hg, hs, List.mem_cons] at h
        rcases h with h | h | h
        · exact RunEvent.noConfusion h
        · obtain ⟨rfl, rfl⟩ := (RunEvent.saved.injEq _ _ _ _).mp h.symm
          exact hg
        · exact ih h
      · simp only [analyzeLoop, hg, hs, List.mem_cons, List.not_mem_nil, or_false] at h
        exact RunEvent.noConfusion h

theorem analyzeLoop_no_save_error (fetch : String → FetchOutcome)
    (saveRaises : String → Option String) (hs : ∀ u, saveRaises u = none) :
    ∀ ts : List String, (analyzeLoop fetch saveRaises ts).2 = none := by
  intro ts
  induction ts with
  | nil => rfl
  | cons u us ih =>
    rcases hg : (get_stock_data u (fetch u)).1 with _ | df <;>
      simp [analyzeLoop, hg, hs u, ih]

/-- C8: fetch failures are isolated.  `get_stock_data` answers a raised
provider error by logging it and returning `None` (never propagating); a
ticker whose fetch yields no data contributes no save (hence no
`StockDetails` insert) to the run; and a run whose saves and final recompute
raise nothing returns success, whatever the fetch outcomes were. -/
theorem fetch_failure_isolated (tickers : List String)
    (fetch : String → FetchOutcome) (saveRaises : String → Option String)
    (updateRaises : Option String) (t : String) :
    (∀ msg, get_stock_data t (FetchOutcome.raises msg) =
      (none, [FetchEvent.logFetchError t msg])) ∧
    ((get_stock_data t (fetch t)).1 = none →
      ∀ df, RunEvent.saved t df ∉
        (analyze_stocks tickers fetch saveRaises updateRaises).2) ∧
    ((∀ u, saveRaises u = none) → updateRaises = none →
      (analyze_stocks tickers fetch saveRaises updateRaises).1.1 = true) := by
  refine ⟨fun msg => rfl, ?_, ?_⟩
  · intro hnone df hmem
    have hloop : RunEvent.saved t df ∈ (analyzeLoop fetch saveRaises tickers).1 := by
      rcases hl : analyzeLoop fetch saveRaises tickers with ⟨evs, res⟩
      rcases res with _ | msg
      · rcases updateRaises with _ | m
        · simp only [analyze_stocks, hl, List.mem_append] at hmem
          rcases hmem with hmem | hmem
          · exact hmem
          · simp at hmem
        · simpa only [analyze_stocks, hl] using hmem
      · simpa only [analyze_stocks, hl] using hmem
    have := analyzeLoop_saved_mem fetch saveRaises t df tickers hloop
    rw [hnone] at this
    exact Option.noConfusion this
  · intro hs hu
    have hres := analyzeLoop_no_save_error fetch saveRaises hs tickers
    rcases hl : analyzeLoop fetch saveRaises tickers with ⟨evs, res⟩
    rw [hl] at hres
    have : res = none := hres
    subst this
    simp [analyze_stocks, hl, hu]

theorem fetch_failure_isolated_witness :
    RunEvent.saved "XXXX" [] ∉
      (analyze_stocks ["XXXX"] (fun _ => FetchOutcome.history [])
        (fun _ => none) none).2 ∧
    (analyze_stocks ["XXXX"] (fun _ => FetchOutcome.history [])
      (fun _ => none) none).1.1 = true := by
  constructor
  · exact (fetch_failure_isolated ["XXXX"] (fun _ => FetchOutcome.history [])
      (fun _ => none) none "XXXX").2.1 rfl []
  · exact (fetch_failure_isolated ["XXXX"] (fun _ => FetchOutcome.history [])
      (fun _ => none) none "XXXX").2.2 (fun u => rfl) rfl

/-- C9: `analyze_stocks` always returns a `(success, message)` pair — the
embedded function is total, mirroring the `except Exception` arm that
converts any raise into a return value.  When the loop and the recompute
raise nothing it returns `(True, "Analysis completed successfully")`; when
the loop raises with message `msg`, or the loop succeeds and the recompute
raises with message `msg`, it returns `(False, "Analysis failed: " ++ msg)`,
a message containing the exception's message. -/
theorem analyze_stocks_result (tickers : List String)
    (fetch : String → FetchOutcome) (saveRaises : String → Option String)
    (updateRaises : Option String) :
    ((analyzeLoop fetch saveRaises tickers).2 = none → updateRaises = none →
      (analyze_stocks tickers fetch saveRaises updateRaises).1 =
        (true, "Analysis completed successfully")) ∧
    (∀ msg, (analyzeLoop fetch saveRaises tickers).2 = some msg →
      (analyze_stocks tickers fetch saveRaises updateRaises).1 =
        (false, "Analysis failed: " ++ msg)) ∧
    (∀ msg, (analyzeLoop fetch saveRaises tickers).2 = none →
      updateRaises = some msg →
      (analyze_stocks tickers fetch saveRaises updateRaises).1 =
        (false, "Analysis failed: " ++ msg)) := by
  rcases hl : analyzeLoop fetch saveRaises tickers with ⟨evs, res⟩
  refine ⟨?_, ?_, ?_⟩
  · intro h hu
    have : res = none := h
    subst this
    simp [analyze_stocks, hl, hu]
  · intro msg h
    have : res = some msg := h
    subst this
    simp [analyze_stocks, hl]
  · intro msg h hu
    have : res = none := h
    subst this
    simp [analyze_stocks, hl, hu]

theorem analyze_stocks_result_witness :
    (analyze_stocks ["AAPL"] (fun _ => FetchOutcome.history [sampleRaw])
      (fun _ => some "boom") none).1 =
        (false, "Analysis failed: " ++ "boom") :=
  (analyze_stocks_result ["AAPL"] (fun _ => FetchOutcome.history [sampleRaw])
    (fun _ => some "boom") none).2.1 "boom" rfl
